import Mathlib

/-!
Shallow embedding of the MCP WebSocket demo's connection core:

* `lib/websocket-server.ts` (`MCPWebSocketServer`): handshake/auth gate,
  message parsing, MCP request router, keepalive ping loop, registry
  bookkeeping, `broadcast` / `sendToUser` dispatch.
* `hooks/useWebSocket.ts`: client correlation layer (`sendMessage`, the
  `onmessage` handler, the per-request timeout) and the reconnection
  supervisor (`onclose` / `disconnect`).

External collaborators (capability registry `getAllTools` / `getAllResources`
/ `getResourceContent` / `executeTool`, and JWT verification `verifyToken`)
are modelled as parameters, exactly the boundary the code imports them
across.  Timer-driven and event-driven code is modelled as explicit step
functions over the state those callbacks close over.
-/

namespace MCPDemo

/-! ## JavaScript-flavoured primitives -/

/-- JS string truthiness: `undefined` / `null` and the empty string are falsy. -/
def strTruthy : Option String → Bool
  | none => false
  | some s => !(s == "")

/-- JS `a || b` on possibly-absent strings: keep `a` when truthy, else take `b`. -/
def jsOrStr (a b : Option String) : Option String :=
  if strTruthy a then a else b

/-- JS `x || d` fallback: an absent or empty string falls back to `d`. -/
def jsOrStrD (a : Option String) (d : String) : String :=
  match a with
  | none => d
  | some s => if s = "" then d else s

/-- JS rendering of a possibly-undefined string inside a template literal. -/
def jsShowOpt : Option String → String
  | none => "undefined"
  | some s => s

/-- JS `String.prototype.replace` with a string pattern: only the first
occurrence is replaced (here: removed, as the replacement is `""`). -/
def replaceFirst (s pat : String) : String :=
  match s.splitOn pat with
  | [] => s
  | [p] => p
  | p0 :: p1 :: rest => p0 ++ String.intercalate pat (p1 :: rest)

/-- Decimal digit character (codepoint `48 + d`). -/
def digitCh (d : Nat) : Char := Char.ofNat (48 + d)

/-- Codepoint distance from `'0'`, the left inverse of `digitCh` on digits. -/
def charVal (c : Char) : Nat := c.toNat - 48

/-- Little-endian decimal digits of `n`, with structural fuel (`fuel ≥ n`
suffices). -/
def decDigitsAux : Nat → Nat → List Nat
  | 0, _ => []
  | _ + 1, 0 => []
  | fuel + 1, n + 1 => ((n + 1) % 10) :: decDigitsAux fuel ((n + 1) / 10)

/-- JS rendering of a nonnegative integer (`${n}`, `n.toString()`):
its decimal digit string. -/
def decStr (n : Nat) : String :=
  if n = 0 then "0" else ⟨(decDigitsAux n n).reverse.map digitCh⟩

/-! ## Wire data model (`MCPWebSocketMessage` and friends) -/

/-- `params` of an MCP request: `resources/read` uses `uri`,
`tools/call` uses `name` and `arguments`. -/
structure MCPParams where
  uri : Option String := none
  name : Option String := none
  arguments : Option (List (String × String)) := none
  deriving DecidableEq, Repr

/-- One `content` item of a tool result. -/
structure ContentItem where
  type : String
  text : String
  deriving DecidableEq, Repr

/-- `MCPToolResult`: tool output, `isError` optional. -/
structure MCPToolResult where
  content : List ContentItem
  isError : Option Bool := none
  deriving DecidableEq, Repr

/-- `MCPTool` descriptor as listed by the capability registry
(`inputSchema` is opaque to the router and omitted). -/
structure MCPTool where
  name : String
  description : String
  deriving DecidableEq, Repr

/-- `MCPResource` descriptor as listed by the capability registry. -/
structure MCPResource where
  uri : String
  name : String
  description : Option String := none
  mimeType : Option String := none
  deriving DecidableEq, Repr

/-- The `result` payloads the server actually produces. -/
inductive ResultVal where
  | welcome (message userId role : String) (availableTools availableResources : Nat)
  | toolsList (tools : List MCPTool)
  | resourcesList (resources : List MCPResource)
  | readContent (content : String)
  | callResult (content : List ContentItem) (isError : Bool)
  deriving DecidableEq, Repr

/-- A parsed JSON envelope (`MCPWebSocketMessage` at runtime): every field may
be absent, and `type` is an arbitrary string tag.  `timestamp` is the extra
field the server puts on its ping envelopes. -/
structure RawMsg where
  id : Option String := none
  type : Option String := none
  method : Option String := none
  params : Option MCPParams := none
  result : Option ResultVal := none
  error : Option String := none
  timestamp : Option Nat := none
  deriving DecidableEq, Repr

/-- Outcome of `JSON.parse` on an inbound frame: `malformed` when parsing (or
the immediate field access on a non-object result) throws. -/
inductive Inbound where
  | malformed
  | parsed (msg : RawMsg)
  deriving DecidableEq, Repr

/-- An effect the server performs on one socket. -/
inductive Outbound where
  | send (msg : RawMsg)
  | close (code : Nat) (reason : String)
  deriving DecidableEq, Repr

/-! ## External capability and auth boundaries -/

/-- The capability-registry boundary consumed by the router and the welcome
message (`getAllTools`, `getAllResources`, `getResourceContent`,
`executeTool`); handlers may reject, modelled by `Except`. -/
structure CapabilityEnv where
  getAllTools : List MCPTool
  getAllResources : List MCPResource
  getResourceContent : String → Except String String
  executeTool : String → List (String × String) → Except String MCPToolResult

/-- `User` as returned by `verifyToken` (`id` is a numeric DB key). -/
structure User where
  id : Nat
  username : String
  email : String
  role : String
  createdAt : String
  deriving DecidableEq, Repr

/-! ## Server: request router (`handleMCPRequest`) -/

/-- The four method names the `switch` in `handleMCPRequest` recognises. -/
def knownMethods : List String :=
  ["tools/list", "resources/list", "resources/read", "tools/call"]

/-- The `switch (method)` body of `handleMCPRequest`: computes the `result`
or the thrown error message.  `params?.uri` / `params?.name` guards use JS
truthiness; `params.arguments || {}` defaults to the empty record. -/
def routeMethod (env : CapabilityEnv) (method : Option String)
    (params : Option MCPParams) : Except String ResultVal :=
  if method = some "tools/list" then
    .ok (.toolsList env.getAllTools)
  else if method = some "resources/list" then
    .ok (.resourcesList env.getAllResources)
  else if method = some "resources/read" then
    if !strTruthy (params.bind MCPParams.uri) then
      .error "Resource URI is required"
    else
      match env.getResourceContent (jsShowOpt (params.bind MCPParams.uri)) with
      | .error e => .error e
      | .ok content => .ok (.readContent content)
  else if method = some "tools/call" then
    if !strTruthy (params.bind MCPParams.name) then
      .error "Tool name is required"
    else
      match env.executeTool (jsShowOpt (params.bind MCPParams.name))
          ((params.bind MCPParams.arguments).getD []) with
      | .error e => .error e
      | .ok tr => .ok (.callResult tr.content (tr.isError.getD false))
  else
    .error ("Unknown MCP method: " ++ jsShowOpt method)

/-- `handleMCPRequest`: one response envelope on success, one error envelope
(carrying the thrown message) on failure, both tagged with the inbound id;
the socket is never closed here. -/
def handleMCPRequest (env : CapabilityEnv) (message : RawMsg) : List Outbound :=
  match routeMethod env message.method message.params with
  | .ok result => [.send { id := message.id, type := some "mcp_response", result := some result }]
  | .error e => [.send { id := message.id, type := some "error", error := some e }]

/-! ## Server: inbound frame handling (`handleMessage`) -/

/-- `handleMessage`: a frame that fails to parse gets the generic parse-error
envelope; a parsed `pong` returns early; a parsed `mcp_request` with a truthy
`method` is dispatched; anything else is silently ignored. -/
def handleMessage (env : CapabilityEnv) (inbound : Inbound) : List Outbound :=
  match inbound with
  | .malformed =>
      [.send { id := some "parse-error", type := some "error",
               error := some "Invalid message format" }]
  | .parsed parsed =>
      if parsed.type = some "pong" then []
      else if parsed.type = some "mcp_request" && strTruthy parsed.method then
        handleMCPRequest env parsed
      else []

/-! ## Server: connection registry -/

/-- An authenticated socket as stored in `clients`; `wsId` identifies the
underlying socket object. -/
structure ClientConn where
  wsId : Nat
  userId : String
  userRole : String
  deriving DecidableEq, Repr

/-- The `clients : Map<string, AuthenticatedWebSocket>` registry, as an
insertion-ordered association list with unique keys. -/
abbrev Registry := List (String × ClientConn)

/-- JS `Map.set`: overwrite an existing key in place, else append. -/
def mapSet (m : Registry) (k : String) (v : ClientConn) : Registry :=
  if m.any (fun p => p.1 = k) then
    m.map (fun p => if p.1 = k then (k, v) else p)
  else m ++ [(k, v)]

/-- The `ws.on('close')` handler's registry effect: scan the entries, delete
the first one whose socket is `ws`, then `break`. -/
def removeClient (m : Registry) (wsId : Nat) : Registry :=
  match m with
  | [] => []
  | (k, c) :: rest => if c.wsId = wsId then rest else (k, c) :: removeClient rest wsId

/-- The `ws.on('error')` handler's registry effect: it only logs, so the
registry is untouched. -/
def onErrorHandler (m : Registry) : Registry := m

/-- `WebSocket.OPEN`. -/
def wsOPEN : Nat := 1

/-- `broadcast`: write `message` to every registered socket that is open and
does not belong to `excludeUserId`; returns the performed writes. -/
def broadcast (m : Registry) (readyState : Nat → Nat) (message : String)
    (excludeUserId : Option String) : List (Nat × String) :=
  m.filterMap (fun p =>
    if readyState p.2.wsId = wsOPEN ∧ some p.2.userId ≠ excludeUserId then
      some (p.2.wsId, message)
    else none)

/-- `sendToUser`: write `message` to every registered open socket of `userId`. -/
def sendToUser (m : Registry) (readyState : Nat → Nat) (userId : String)
    (message : String) : List (Nat × String) :=
  m.filterMap (fun p =>
    if readyState p.2.wsId = wsOPEN ∧ p.2.userId = userId then
      some (p.2.wsId, message)
    else none)

/-! ## Server: handshake (`handleConnection`) -/

/-- The credential-bearing parts of the upgrade request. -/
structure ConnRequest where
  queryToken : Option String := none
  authorization : Option String := none
  cookieHeader : Option String := none
  deriving DecidableEq, Repr

/-- One `cookie.trim().split('=')` step: `[key, value]` destructuring, a
missing `=` leaves the value `undefined`, extra parts are dropped. -/
def parseCookiePair (c : String) : String × Option String :=
  match c.trim.splitOn "=" with
  | [] => ("", none)
  | [k] => (k, none)
  | k :: v :: _ => (k, some v)

/-- The cookie `reduce` into an object followed by the `auth-token` lookup:
a later duplicate key overwrites an earlier one. -/
def cookieLookup (cookieHeader : String) (key : String) : Option String :=
  let pairs := (cookieHeader.splitOn ";").map parseCookiePair
  match pairs.reverse.find? (fun p => p.1 = key) with
  | some p => p.2
  | none => none

/-- Credential extraction: query parameter, else `Bearer `-stripped
authorization header; if that is falsy and a cookie header is present,
the `auth-token` cookie. -/
def extractToken (req : ConnRequest) : Option String :=
  let token := jsOrStr req.queryToken
    (req.authorization.map (fun a => replaceFirst a "Bearer "))
  if !strTruthy token ∧ strTruthy req.cookieHeader then
    cookieLookup (req.cookieHeader.getD "") "auth-token"
  else token

/-- Everything `handleConnection` does to the outside world: envelopes sent
to the connecting socket (in order), an optional close, and the registry
after the call. -/
structure ConnOutcome where
  sent : List RawMsg
  closed : Option (Nat × String)
  clients : Registry
  deriving DecidableEq, Repr

/-- `handleConnection`: missing token → one error envelope and
`close(1008)`; invalid token → one error envelope and `close(1008)`;
valid token → one `Map.set` and one welcome envelope carrying the decoded
identity and the capability counts. -/
def handleConnection (env : CapabilityEnv) (verifyToken : String → Option User)
    (now : Nat) (clients : Registry) (wsId : Nat) (req : ConnRequest) : ConnOutcome :=
  let token := extractToken req
  if !strTruthy token then
    { sent := [{ id := some "auth-error", type := some "error",
                 error := some "Authentication token required" }],
      closed := some (1008, "Authentication required"),
      clients := clients }
  else
    match verifyToken (jsShowOpt token) with
    | none =>
      { sent := [{ id := some "auth-error", type := some "error",
                   error := some "Invalid authentication token" }],
        closed := some (1008, "Authentication failed"),
        clients := clients }
    | some decoded =>
      let userId := decStr decoded.id
      let clientId := userId ++ "-" ++ decStr now
      { sent := [{ id := some "welcome", type := some "mcp_response",
                   result := some (.welcome "Connected to MCP WebSocket server"
                     userId decoded.role
                     env.getAllTools.length env.getAllResources.length) }],
        closed := none,
        clients := mapSet clients clientId
          { wsId := wsId, userId := userId, userRole := decoded.role } }

/-! ## Server: keepalive ping loop -/

/-- The fixed keepalive period handed to `setInterval`. -/
def pingIntervalMs : Nat := 30000

/-- The ping envelope sent by the keepalive callback. -/
def mkPing (now : Nat) : RawMsg :=
  { id := some "ping", type := some "ping", timestamp := some now }

/-- One firing of the keepalive `setInterval` callback: while the interval is
live, an open socket gets one ping and the interval survives; a non-open
socket gets nothing and the interval is cleared. -/
def pingTick (active isOpen : Bool) (now : Nat) : List RawMsg × Bool :=
  if active then
    if isOpen then ([mkPing now], true) else ([], false)
  else ([], false)

/-- Run the keepalive callback over a trace of `(socket open?, time)` ticks,
collecting what each tick sends. -/
def pingRun (trace : List (Bool × Nat)) (active : Bool) : List (List RawMsg) :=
  match trace with
  | [] => []
  | (isOpen, now) :: rest =>
    let t := pingTick active isOpen now
    t.1 :: pingRun rest t.2

/-! ## Client: correlation layer (`useWebSocket`) -/

/-- A settlement performed on a pending request's promise. -/
inductive ClientAction where
  | resolve (id : String) (msg : RawMsg)
  | reject (id : String) (errMessage : String)
  deriving DecidableEq, Repr

/-- The keys of `messageHandlersRef.current` (all registered handlers have
the same resolve/reject shape, so the id set is the whole state). -/
abbrev Pending := List String

/-- JS `Map.set` on the handler table: re-registering an existing key
replaces its handler, a new key is appended. -/
def pendingSet (p : Pending) (id : String) : Pending :=
  if p.contains id then p else p ++ [id]

/-- The client `ws.onmessage` handler: `pong` frames return early; otherwise
a truthy id with a registered handler runs it (reject on an `error` envelope
with its carried message, resolve otherwise) and deletes the entry. -/
def clientOnMessage (pending : Pending) (message : RawMsg) :
    Pending × List ClientAction :=
  if message.type = some "pong" then (pending, [])
  else
    match message.id with
    | some theId =>
      if (theId != "") && pending.contains theId then
        let act := if message.type = some "error"
          then ClientAction.reject theId (jsOrStrD message.error "Unknown error")
          else ClientAction.resolve theId message
        (pending.erase theId, [act])
      else (pending, [])
    | none => (pending, [])

/-- The fixed per-request deadline handed to `setTimeout` in `sendMessage`. -/
def requestTimeoutMs : Nat := 30000

/-- The timeout callback `sendMessage` registers for `id`: if the entry is
still pending, delete it and reject with the timeout error; the socket's
state is not consulted. -/
def timeoutFire (pending : Pending) (id : String) : Pending × List ClientAction :=
  if pending.contains id then
    (pending.erase id, [ClientAction.reject id "Request timeout"])
  else (pending, [])

/-- Correlation-id generation in `sendMessage`:
the template `msg_${Date.now()}_${Math.random().toString(36).substr(2, 9)}`,
with the timestamp and the random suffix as oracle inputs. -/
def genId (now : Nat) (rand : String) : String :=
  "msg_" ++ decStr now ++ "_" ++ rand

/-- The ids a sequence of `sendMessage` calls generates, one per oracle draw
`(Date.now(), random suffix)`. -/
def sendIds (draws : List (Nat × String)) : List String :=
  draws.map (fun d => genId d.1 d.2)

/-- What one `sendMessage` call does synchronously. -/
structure SendOutcome where
  pending : Pending
  transmitted : List RawMsg
  immediateReject : Option String := none
  newId : Option String := none
  deriving Repr

/-- `sendMessage`: a non-open socket rejects at once without registering;
otherwise generate an id, register the pending entry, transmit the tagged
envelope (the timeout callback is `timeoutFire` applied later). -/
def sendMessage (wsOpen : Bool) (pending : Pending) (now : Nat) (rand : String)
    (message : RawMsg) : SendOutcome :=
  if !wsOpen then
    { pending := pending, transmitted := [],
      immediateReject := some "WebSocket is not connected" }
  else
    let theId := genId now rand
    { pending := pendingSet pending theId,
      transmitted := [{ message with id := some theId }],
      newId := some theId }

/-! ## Client: reconnection supervisor -/

/-- The fixed reconnect delay handed to `setTimeout` in `ws.onclose`. -/
def reconnectDelayMs : Nat := 3000

/-- Lifecycle phase of the socket currently held by `wsRef`. -/
inductive WsPhase where
  | noWs
  | opened
  | wentClosed
  deriving DecidableEq, Repr

/-- The state the reconnection logic closes over: the socket phase, the
number of scheduled-and-not-yet-fired reconnect timers, and whether a user
session is active. -/
structure ReconnState where
  phase : WsPhase
  timers : Nat
  sessionActive : Bool
  deriving DecidableEq, Repr

/-- Events driving the reconnection logic: login (the auto-connect effect),
a close event of the current socket with its code, a reconnect timer firing
(which calls `connect`), an explicit `disconnect()` call, and logout (which
runs `disconnect` via the effect). -/
inductive ReconnEvent where
  | login
  | closeEvent (code : Nat)
  | timerFire
  | disconnectCall
  | logout
  deriving DecidableEq, Repr

/-- The `connect()` body's effect on the phase: bail out unless a user is
present and the current socket is not open. -/
def connectStep (s : ReconnState) : ReconnState :=
  if s.sessionActive ∧ s.phase ≠ .opened then { s with phase := .opened } else s

/-- One reconnection-supervisor transition; `none` when the event cannot
occur in that state (a close event needs a live socket, a timer firing needs
an outstanding timer).  `ws.onclose` schedules a timer exactly when
`code ≠ 1000` and a user is present; `disconnect()` clears the referenced
timer and closes the socket deliberately. -/
def reconnStep (s : ReconnState) : ReconnEvent → Option ReconnState
  | .login =>
    if s.sessionActive then none
    else some (connectStep { s with sessionActive := true })
  | .closeEvent code =>
    if s.phase = .opened then
      some { s with phase := .wentClosed,
                    timers := if code ≠ 1000 ∧ s.sessionActive then s.timers + 1 else s.timers }
    else none
  | .timerFire =>
    if s.timers ≥ 1 then some (connectStep { s with timers := s.timers - 1 })
    else none
  | .disconnectCall =>
    some { s with timers := s.timers - 1, phase := .noWs }
  | .logout =>
    some { phase := .noWs, timers := s.timers - 1, sessionActive := false }

/-- The state before any session: no socket, no timer, no user. -/
def reconnInit : ReconnState :=
  { phase := .noWs, timers := 0, sessionActive := false }

/-! ## State-passing view of `handleMessage` and concrete fixtures -/

/-- `handleMessage` as a step on the server state: its body never references
`this.clients`, so the registry passes through unchanged. -/
def handleMessageS (env : CapabilityEnv) (clients : Registry) (inbound : Inbound) :
    Registry × List Outbound :=
  (clients, handleMessage env inbound)

/-- A concrete capability environment (the two basic registered tools; every
handler call rejects) used to evaluate theorems on closed inputs. -/
def env0 : CapabilityEnv where
  getAllTools :=
    [{ name := "echo", description := "Echo back a message" },
     { name := "get_time", description := "Get the current time" }]
  getAllResources := []
  getResourceContent := fun u => .error ("Resource not found: " ++ u)
  executeTool := fun _ _ => .error "boom"

/-- A concrete authenticated user. -/
def u0 : User :=
  { id := 7, username := "alice", email := "a@example.com", role := "admin",
    createdAt := "2024-01-01" }

/-- A concrete verifier accepting exactly the token `"tok"`. -/
def vt0 : String → Option User :=
  fun s => if s = "tok" then some u0 else none

/-- A concrete one-entry registry. -/
def reg1 : Registry :=
  [("1-5", { wsId := 5, userId := "1", userRole := "user" })]

/-- States reachable from `reconnInit` by reconnection events. -/
inductive ReconnReachable : ReconnState → Prop where
  | init : ReconnReachable reconnInit
  | step {s s' : ReconnState} {e : ReconnEvent} :
      ReconnReachable s → reconnStep s e = some s' → ReconnReachable s'

/-- The reconnection invariant: at most one timer is outstanding, a timer
exists only after an abnormal close of an active session, and an inactive
session holds neither socket nor timer. -/
def reconnInv (s : ReconnState) : Prop :=
  s.timers ≤ 1 ∧
  (s.timers = 1 → s.phase = .wentClosed ∧ s.sessionActive) ∧
  (s.sessionActive = false → s.timers = 0 ∧ s.phase = .noWs) ∧
  (s.phase = .opened → s.timers = 0)

/-! ## Theorems -/

/-- Claim C10: a well-formed JSON envelope of type `mcp_response`, `error`,
`ping` or `pong` gets no reply (in particular a ping is never answered with a
pong), no close is issued, and the client registry is unchanged. -/
theorem c10_passive_envelopes (env : CapabilityEnv) (clients : Registry) (m : RawMsg)
    (h : m.type = some "mcp_response" ∨ m.type = some "error" ∨
         m.type = some "ping" ∨ m.type = some "pong") :
    handleMessageS env clients (.parsed m) = (clients, []) := by
  rcases h with h | h | h | h <;>
    simp [handleMessageS, handleMessage, h]

/-- Witness for C10 at a concrete ping envelope. -/
theorem c10_passive_envelopes_witness :
    handleMessageS env0 [("7-0", { wsId := 3, userId := "7", userRole := "admin" })]
      (.parsed { id := some "ping", type := some "ping" }) =
      ([("7-0", { wsId := 3, userId := "7", userRole := "admin" })], []) :=
  c10_passive_envelopes env0 _ _ (Or.inr (Or.inr (Or.inl rfl)))

/-- Counterexample to claim C8 as stated: a syntactically valid JSON envelope
missing the required `method` field (type `mcp_request`, no method) draws no
parse-error envelope at all — the message is silently ignored. -/
theorem c8_counterexample :
    handleMessage env0 (.parsed { id := some "1", type := some "mcp_request" }) = [] ∧
    handleMessage env0 (.parsed { id := some "1", type := some "mcp_request" }) ≠
      [.send { id := some "parse-error", type := some "error",
               error := some "Invalid message format" }] := by
  refine ⟨rfl, ?_⟩
  decide

/-- Claim C8 (amended): a frame that is not valid JSON draws exactly the
generic parse-error envelope; a well-formed JSON frame that is not a `pong`
and not a dispatchable `mcp_request` (truthy `method`) is silently ignored;
and `handleMessage` never closes the connection. -/
theorem c8_amended (env : CapabilityEnv) :
    (handleMessage env .malformed =
      [.send { id := some "parse-error", type := some "error",
               error := some "Invalid message format" }]) ∧
    (∀ m : RawMsg, m.type ≠ some "pong" →
      ¬(m.type = some "mcp_request" ∧ strTruthy m.method = true) →
      handleMessage env (.parsed m) = []) ∧
    (∀ inbound, ∀ o ∈ handleMessage env inbound, ∃ e, o = Outbound.send e) := by
  refine ⟨rfl, ?_, ?_⟩
  · intro m hpong hreq
    simp only [handleMessage, if_neg hpong]
    rw [if_neg]
    simp only [Bool.and_eq_true, decide_eq_true_eq]
    exact fun hc => hreq ⟨hc.1, hc.2⟩
  · intro inbound o ho
    cases inbound with
    | malformed =>
      simp [handleMessage] at ho
      exact ⟨_, ho⟩
    | parsed m =>
      simp only [handleMessage] at ho
      split at ho
      · simp at ho
      · split at ho
        · unfold handleMCPRequest at ho
          rcases hr : routeMethod env m.method m.params with e | r <;>
            rw [hr] at ho <;> simp at ho <;> exact ⟨_, ho⟩
        · simp at ho

/-- Witness for C8 (amended) at concrete inputs. -/
theorem c8_amended_witness :
    handleMessage env0 .malformed =
      [.send { id := some "parse-error", type := some "error",
               error := some "Invalid message format" }] ∧
    handleMessage env0 (.parsed { id := some "1", type := some "error" }) = [] := by
  refine ⟨(c8_amended env0).1, ?_⟩
  exact (c8_amended env0).2.1 { id := some "1", type := some "error" } (by decide) (by decide)

/-- Claim C2: the router emits exactly one outbound envelope per dispatched
request, bearing the inbound id verbatim and never closing the socket: an
`mcp_response` when the routed method succeeds, an error envelope carrying
the thrown message when it fails; an unknown method throws the literal
`"Unknown MCP method: <method>"`, and a rejecting tool handler's message is
carried through. -/
theorem c2_router_one_reply (env : CapabilityEnv) (m : RawMsg) :
    (handleMCPRequest env m).length = 1 ∧
    (∀ o ∈ handleMCPRequest env m, ∃ e, o = Outbound.send e ∧ e.id = m.id) ∧
    (∀ r, routeMethod env m.method m.params = .ok r →
      handleMCPRequest env m =
        [.send { id := m.id, type := some "mcp_response", result := some r }]) ∧
    (∀ s, routeMethod env m.method m.params = .error s →
      handleMCPRequest env m =
        [.send { id := m.id, type := some "error", error := some s }]) ∧
    (∀ mth, m.method = some mth → mth ∉ knownMethods →
      routeMethod env m.method m.params = .error ("Unknown MCP method: " ++ mth)) ∧
    (∀ p nm err, m.method = some "tools/call" → m.params = some p →
      p.name = some nm → nm ≠ "" →
      env.executeTool nm ((p.arguments).getD []) = .error err →
      routeMethod env m.method m.params = .error err) := by
  refine ⟨?_, ?_, ?_, ?_, ?_, ?_⟩
  · unfold handleMCPRequest
    rcases routeMethod env m.method m.params with e | r <;> rfl
  · intro o ho
    unfold handleMCPRequest at ho
    rcases hr : routeMethod env m.method m.params with e | r <;>
      rw [hr] at ho <;> simp at ho <;> exact ⟨_, ho, rfl⟩
  · intro r hr
    unfold handleMCPRequest
    rw [hr]
  · intro s hs
    unfold handleMCPRequest
    rw [hs]
  · intro mth hm hmem
    simp only [knownMethods, List.mem_cons, List.mem_singleton] at hmem
    push_neg at hmem
    obtain ⟨h1, h2, h3, h4⟩ := hmem
    simp [routeMethod, hm, h1, h2, h3, h4, jsShowOpt]
  · intro p nm err hm hp hnm hne hexec
    simp [routeMethod, hm, hp, hnm, strTruthy, hne, jsShowOpt, hexec]

/-- Witness for C2: the spec's own example `send({method:'bogus/op'})` yields
one error envelope with the literal unknown-method message, addressed to the
request id. -/
theorem c2_router_one_reply_witness :
    handleMCPRequest env0
      { id := some "req-1", type := some "mcp_request", method := some "bogus/op" } =
      [.send { id := some "req-1", type := some "error",
               error := some "Unknown MCP method: bogus/op" }] := by
  have h := c2_router_one_reply env0
    { id := some "req-1", type := some "mcp_request", method := some "bogus/op" }
  exact h.2.2.2.1 _ (h.2.2.2.2.1 "bogus/op" rfl (by decide))

/-- After the keepalive interval dies it never sends again. -/
theorem pingRun_inactive (trace : List (Bool × Nat)) :
    pingRun trace false = List.replicate trace.length [] := by
  induction trace with
  | nil => rfl
  | cons p rest ih =>
    obtain ⟨isOpen, now⟩ := p
    simp [pingRun, pingTick, ih, List.replicate_succ]

/-- Claim C7: the keepalive probe runs at the fixed 30-second period; over any
trace of ticks it sends exactly one ping per tick while the socket has stayed
open, and nothing at or after the first tick that finds the socket non-open;
on the client, an envelope of kind `pong` is dropped without touching any
pending entry, whatever its id. -/
theorem c7_keepalive :
    pingIntervalMs = 30000 ∧
    (∀ trace : List (Bool × Nat),
      pingRun trace true =
        (trace.takeWhile (fun p => p.1)).map (fun p => [mkPing p.2]) ++
        List.replicate (trace.length - (trace.takeWhile (fun p => p.1)).length) []) ∧
    (∀ (pending : Pending) (m : RawMsg),
      clientOnMessage pending { m with type := some "pong" } = (pending, [])) := by
  refine ⟨rfl, ?_, ?_⟩
  · intro trace
    induction trace with
    | nil => rfl
    | cons p rest ih =>
      obtain ⟨isOpen, now⟩ := p
      cases isOpen with
      | true => simp [pingRun, pingTick, ih, List.takeWhile]
      | false =>
        simp [pingRun, pingTick, List.takeWhile, pingRun_inactive,
          List.replicate_succ]
  · intro pending m
    simp [clientOnMessage]

/-- Membership gives a positive `contains` test. -/
theorem contains_of_mem {l : List String} {a : String} (h : a ∈ l) :
    l.contains a = true := by
  simpa [List.contains, List.elem_iff] using h

/-- Absence gives a negative `contains` test. -/
theorem contains_eq_false_of_not_mem {l : List String} {a : String} (h : a ∉ l) :
    l.contains a = false := by
  cases hc : l.contains a with
  | false => rfl
  | true => exact absurd (by simpa [List.contains, List.elem_iff] using hc) h

/-- A generated correlation id is never the empty string. -/
theorem genId_ne_empty (now : Nat) (rand : String) : genId now rand ≠ "" := by
  intro h
  have hl := congrArg String.length h
  simp only [genId, String.length_append] at hl
  have h4 : "msg_".length = 4 := rfl
  have h1 : "_".length = 1 := rfl
  have h0 : ("" : String).length = 0 := rfl
  omega

/-- Registering an id makes it pending. -/
theorem mem_pendingSet_self (p : Pending) (a : String) : a ∈ pendingSet p a := by
  unfold pendingSet
  split
  · next hc => simpa [List.contains, List.elem_iff] using hc
  · simp

/-- Registration keeps the handler table's keys unique. -/
theorem nodup_pendingSet (p : Pending) (a : String) (h : p.Nodup) :
    (pendingSet p a).Nodup := by
  unfold pendingSet
  split
  · exact h
  · next hc =>
    have : a ∉ p := by
      intro hm
      exact absurd (contains_of_mem hm) (by simpa using hc)
    simp [List.nodup_append, h, this]

/-- Claim C3: an entry created by `sendMessage` is destroyed by exactly one
path.  The first matching terminal envelope settles it (reject on kind
`error`, resolve otherwise) and removes it; after that, a duplicate delivery
of the same id performs no action, and the timeout performs no action.
Conversely, if the timeout fires first it rejects and removes the entry, and
the late envelope then performs no action. -/
theorem c3_single_settlement (pending : Pending) (now : Nat) (rand : String)
    (msg e : RawMsg) (hnd : pending.Nodup)
    (hid : e.id = some (genId now rand)) (hnp : e.type ≠ some "pong") :
    (sendMessage true pending now rand msg).pending = pendingSet pending (genId now rand) ∧
    clientOnMessage (pendingSet pending (genId now rand)) e =
      ((pendingSet pending (genId now rand)).erase (genId now rand),
       [if e.type = some "error"
        then ClientAction.reject (genId now rand) (jsOrStrD e.error "Unknown error")
        else ClientAction.resolve (genId now rand) e]) ∧
    clientOnMessage ((pendingSet pending (genId now rand)).erase (genId now rand)) e =
      ((pendingSet pending (genId now rand)).erase (genId now rand), []) ∧
    timeoutFire ((pendingSet pending (genId now rand)).erase (genId now rand))
        (genId now rand) =
      ((pendingSet pending (genId now rand)).erase (genId now rand), []) ∧
    timeoutFire (pendingSet pending (genId now rand)) (genId now rand) =
      ((pendingSet pending (genId now rand)).erase (genId now rand),
       [ClientAction.reject (genId now rand) "Request timeout"]) := by
  have hmem : genId now rand ∈ pendingSet pending (genId now rand) :=
    mem_pendingSet_self pending (genId now rand)
  have hnd1 : (pendingSet pending (genId now rand)).Nodup :=
    nodup_pendingSet pending (genId now rand) hnd
  have hgone : genId now rand ∉ (pendingSet pending (genId now rand)).erase (genId now rand) :=
    hnd1.not_mem_erase
  have hne : (genId now rand != "") = true := by
    simpa using genId_ne_empty now rand
  have hcf : ((pendingSet pending (genId now rand)).erase
      (genId now rand)).contains (genId now rand) = false :=
    contains_eq_false_of_not_mem hgone
  refine ⟨by simp [sendMessage], ?_, ?_, ?_, ?_⟩
  · simp [clientOnMessage, hid, hnp, hne, hmem]
  · simp [clientOnMessage, hid, hnp, hgone]
  · simp [timeoutFire, hgone]
  · simp [timeoutFire, hmem]

/-- Witness for C3 at a concrete send followed by a concrete response. -/
theorem c3_single_settlement_witness :
    (sendMessage true [] 0 "abc" {}).pending = pendingSet [] (genId 0 "abc") ∧
    clientOnMessage (pendingSet [] (genId 0 "abc"))
        { id := some "msg_0_abc", type := some "mcp_response" } =
      ((pendingSet [] (genId 0 "abc")).erase (genId 0 "abc"),
       [if ({ id := some "msg_0_abc", type := some "mcp_response" } : RawMsg).type
            = some "error"
        then ClientAction.reject (genId 0 "abc")
          (jsOrStrD ({ id := some "msg_0_abc", type := some "mcp_response" } : RawMsg).error
            "Unknown error")
        else ClientAction.resolve (genId 0 "abc")
          { id := some "msg_0_abc", type := some "mcp_response" }]) ∧
    clientOnMessage ((pendingSet [] (genId 0 "abc")).erase (genId 0 "abc"))
        { id := some "msg_0_abc", type := some "mcp_response" } =
      ((pendingSet [] (genId 0 "abc")).erase (genId 0 "abc"), []) ∧
    timeoutFire ((pendingSet [] (genId 0 "abc")).erase (genId 0 "abc")) (genId 0 "abc") =
      ((pendingSet [] (genId 0 "abc")).erase (genId 0 "abc"), []) ∧
    timeoutFire (pendingSet [] (genId 0 "abc")) (genId 0 "abc") =
      ((pendingSet [] (genId 0 "abc")).erase (genId 0 "abc"),
       [ClientAction.reject (genId 0 "abc") "Request timeout"]) :=
  c3_single_settlement [] 0 "abc" {}
    { id := some "msg_0_abc", type := some "mcp_response" }
    (by decide) (by decide) (by decide)

/-- Claim C4: the per-request deadline is the fixed 30 seconds; when it fires
with the entry still pending, the entry is removed and the promise rejected
with the timeout error (the socket's state is not consulted); a terminal
envelope for that id arriving afterwards finds no entry and is discarded
without any action. -/
theorem c4_request_timeout (pending : Pending) (id : String) (e : RawMsg)
    (hmem : id ∈ pending) (hnd : pending.Nodup) (hid : e.id = some id) :
    requestTimeoutMs = 30000 ∧
    timeoutFire pending id =
      (pending.erase id, [ClientAction.reject id "Request timeout"]) ∧
    clientOnMessage (pending.erase id) e = (pending.erase id, []) := by
  have hgone : id ∉ pending.erase id := hnd.not_mem_erase
  refine ⟨rfl, ?_, ?_⟩
  · simp [timeoutFire, hmem]
  · by_cases hp : e.type = some "pong"
    · simp [clientOnMessage, hp]
    · simp [clientOnMessage, hid, hp, hgone]

/-- Witness for C4 at a concrete pending table and a concrete late response. -/
theorem c4_request_timeout_witness :
    requestTimeoutMs = 30000 ∧
    timeoutFire ["msg_1_xyz"] "msg_1_xyz" =
      (["msg_1_xyz"].erase "msg_1_xyz",
       [ClientAction.reject "msg_1_xyz" "Request timeout"]) ∧
    clientOnMessage (["msg_1_xyz"].erase "msg_1_xyz")
        { id := some "msg_1_xyz", type := some "mcp_response" } =
      (["msg_1_xyz"].erase "msg_1_xyz", []) :=
  c4_request_timeout ["msg_1_xyz"] "msg_1_xyz"
    { id := some "msg_1_xyz", type := some "mcp_response" }
    (by decide) (by decide) (by decide)

/-- Claim C1: a handshake with a valid credential performs exactly one
registry `set` (one new entry when the key is fresh) and sends exactly one
welcome envelope carrying the decoded identity and the current capability
counts, without closing; a handshake with a missing credential sends exactly
one error envelope, stores nothing, and closes with 1008; an invalid
credential likewise. -/
theorem c1_handshake :
    (∀ (env : CapabilityEnv) (vt : String → Option User) (now : Nat)
       (clients : Registry) (wsId : Nat) (req : ConnRequest) (t : String) (u : User),
       extractToken req = some t → t ≠ "" → vt t = some u →
       handleConnection env vt now clients wsId req =
         { sent := [{ id := some "welcome", type := some "mcp_response",
                      result := some (.welcome "Connected to MCP WebSocket server"
                        (decStr u.id) u.role
                        env.getAllTools.length env.getAllResources.length) }],
           closed := none,
           clients := mapSet clients (decStr u.id ++ "-" ++ decStr now)
             { wsId := wsId, userId := decStr u.id, userRole := u.role } } ∧
       ((∀ p ∈ clients, p.1 ≠ decStr u.id ++ "-" ++ decStr now) →
         (handleConnection env vt now clients wsId req).clients.length
           = clients.length + 1 ∧
         (decStr u.id ++ "-" ++ decStr now,
           ({ wsId := wsId, userId := decStr u.id, userRole := u.role } : ClientConn)) ∈
           (handleConnection env vt now clients wsId req).clients)) ∧
    (∀ (env : CapabilityEnv) (vt : String → Option User) (now : Nat)
       (clients : Registry) (wsId : Nat) (req : ConnRequest),
       strTruthy (extractToken req) = false →
       handleConnection env vt now clients wsId req =
         { sent := [{ id := some "auth-error", type := some "error",
                      error := some "Authentication token required" }],
           closed := some (1008, "Authentication required"),
           clients := clients }) ∧
    (∀ (env : CapabilityEnv) (vt : String → Option User) (now : Nat)
       (clients : Registry) (wsId : Nat) (req : ConnRequest) (t : String),
       extractToken req = some t → t ≠ "" → vt t = none →
       handleConnection env vt now clients wsId req =
         { sent := [{ id := some "auth-error", type := some "error",
                      error := some "Invalid authentication token" }],
           closed := some (1008, "Authentication failed"),
           clients := clients }) := by
  refine ⟨?_, ?_, ?_⟩
  · intro env vt now clients wsId req t u hext ht hvt
    have hmain : handleConnection env vt now clients wsId req =
        { sent := [{ id := some "welcome", type := some "mcp_response",
                     result := some (.welcome "Connected to MCP WebSocket server"
                       (decStr u.id) u.role
                       env.getAllTools.length env.getAllResources.length) }],
          closed := none,
          clients := mapSet clients (decStr u.id ++ "-" ++ decStr now)
            { wsId := wsId, userId := decStr u.id, userRole := u.role } } := by
      simp [handleConnection, hext, strTruthy, ht, jsShowOpt, hvt]
    refine ⟨hmain, ?_⟩
    intro hfresh
    rw [hmain]
    have hany : clients.any
        (fun p => p.1 = decStr u.id ++ "-" ++ decStr now) = false := by
      cases h : clients.any (fun p => p.1 = decStr u.id ++ "-" ++ decStr now) with
      | false => rfl
      | true =>
        obtain ⟨p, hp, hpk⟩ := List.any_eq_true.mp h
        exact absurd (of_decide_eq_true hpk) (hfresh p hp)
    simp [mapSet, hany]
  · intro env vt now clients wsId req hst
    simp [handleConnection, hst]
  · intro env vt now clients wsId req t hext ht hvt
    simp [handleConnection, hext, strTruthy, ht, jsShowOpt, hvt]

/-- Witness for C1: a valid token via the query parameter, an absent token,
and a rejected token, each on concrete inputs. -/
theorem c1_handshake_witness :
    handleConnection env0 vt0 0 [] 3 { queryToken := some "tok" } =
      { sent := [{ id := some "welcome", type := some "mcp_response",
                   result := some (.welcome "Connected to MCP WebSocket server"
                     (decStr u0.id) u0.role
                     env0.getAllTools.length env0.getAllResources.length) }],
        closed := none,
        clients := mapSet [] (decStr u0.id ++ "-" ++ decStr 0)
          { wsId := 3, userId := decStr u0.id, userRole := u0.role } } ∧
    handleConnection env0 vt0 0 [] 3 {} =
      { sent := [{ id := some "auth-error", type := some "error",
                   error := some "Authentication token required" }],
        closed := some (1008, "Authentication required"), clients := [] } ∧
    handleConnection env0 vt0 0 [] 3 { queryToken := some "bad" } =
      { sent := [{ id := some "auth-error", type := some "error",
                   error := some "Invalid authentication token" }],
        closed := some (1008, "Authentication failed"), clients := [] } :=
  ⟨(c1_handshake.1 env0 vt0 0 [] 3 { queryToken := some "tok" } "tok" u0
      (by decide) (by decide) (by decide)).1,
   c1_handshake.2.1 env0 vt0 0 [] 3 {} (by decide),
   c1_handshake.2.2 env0 vt0 0 [] 3 { queryToken := some "bad" } "bad"
      (by decide) (by decide) (by decide)⟩

/-- Counterexample to claim C5 as stated: an error event on a registered
connection's channel does not remove its registry entry — the error handler
only logs, so a registry holding the entry still holds it afterwards. -/
theorem c5_counterexample :
    ¬ (∀ (m : Registry) (w : Nat),
        m.countP (fun p => p.2.wsId == w) = 1 →
        (onErrorHandler m).countP (fun p => p.2.wsId == w) = 0) := by
  intro h
  have := h [("1-0", ({ wsId := 7, userId := "1", userRole := "user" } : ClientConn))] 7
    (by decide)
  rw [onErrorHandler] at this
  exact absurd this (by decide)

/-- Claim C5 (amended): the close handler removes a registered connection's
entry exactly once (the error handler removes nothing), and once the registry
holds no entry for a socket, neither `broadcast` nor `sendToUser` ever writes
to that socket. -/
theorem c5_registry_removal :
    (∀ m : Registry, onErrorHandler m = m) ∧
    (∀ (m : Registry) (w : Nat), m.countP (fun p => p.2.wsId == w) = 1 →
      (removeClient m w).length + 1 = m.length ∧
      (removeClient m w).countP (fun p => p.2.wsId == w) = 0) ∧
    (∀ (m : Registry) (w : Nat) (rs : Nat → Nat) (msg : String) (ex : Option String),
      m.countP (fun p => p.2.wsId == w) = 0 →
      (∀ x ∈ broadcast m rs msg ex, x.1 ≠ w) ∧
      (∀ uid, ∀ x ∈ sendToUser m rs uid msg, x.1 ≠ w)) := by
  refine ⟨fun _ => rfl, ?_, ?_⟩
  · intro m w
    induction m with
    | nil => intro h; simp at h
    | cons kc rest ih =>
      obtain ⟨k, c⟩ := kc
      intro h
      rw [List.countP_cons] at h
      by_cases hw : c.wsId = w
      · have hhead : ((k, c).2.wsId == w) = true := by simpa using hw
        rw [hhead] at h
        simp only [if_true] at h
        have hrest : rest.countP (fun p => p.2.wsId == w) = 0 := by omega
        simp [removeClient, hw, hrest]
      · have hhead : ((k, c).2.wsId == w) = false := by simpa using hw
        rw [hhead] at h
        simp only [Bool.false_eq_true, if_false, Nat.add_zero] at h
        obtain ⟨hlen, hcnt⟩ := ih h
        refine ⟨?_, ?_⟩
        · simp only [removeClient, if_neg hw, List.length_cons]
          omega
        · simp only [removeClient, if_neg hw, List.countP_cons, hhead]
          simpa using hcnt
  · intro m w rs msg ex h
    have hall : ∀ p ∈ m, p.2.wsId ≠ w := by
      intro p hp
      have := List.countP_eq_zero.mp h p hp
      simpa using this
    constructor
    · intro x hx
      obtain ⟨p, hp, hfp⟩ := List.mem_filterMap.mp hx
      split at hfp
      · injection hfp with hfp
        rw [← hfp]
        exact hall p hp
      · exact absurd hfp (by simp)
    · intro uid x hx
      obtain ⟨p, hp, hfp⟩ := List.mem_filterMap.mp hx
      split at hfp
      · injection hfp with hfp
        rw [← hfp]
        exact hall p hp
      · exact absurd hfp (by simp)

/-- Witness for C5 (amended) on a concrete registry. -/
theorem c5_registry_removal_witness :
    (removeClient reg1 5).length + 1 = reg1.length ∧
    (removeClient reg1 5).countP (fun p => p.2.wsId == 5) = 0 ∧
    (∀ x ∈ broadcast reg1 (fun _ => 1) "hello" none, x.1 ≠ 9) := by
  have h2 := c5_registry_removal.2.1 reg1 5 (by decide)
  have h3 := (c5_registry_removal.2.2 reg1 9 (fun _ => 1) "hello" none (by decide)).1
  exact ⟨h2.1, h2.2, h3⟩

/-- The reconnection invariant holds in every reachable state. -/
theorem reconn_inv_of_reachable {s : ReconnState} (h : ReconnReachable s) :
    reconnInv s := by
  induction h with
  | init => simp [reconnInv, reconnInit]
  | @step s s' e _ hstep ih =>
    obtain ⟨h1, h2, h3, h4⟩ := ih
    cases e with
    | login =>
      simp only [reconnStep] at hstep
      split at hstep
      · exact absurd hstep (by simp)
      · next hact =>
        obtain ⟨hz, hph⟩ := h3 (by simpa using hact)
        injection hstep with hstep
        subst hstep
        simp [reconnInv, connectStep, hz, hph]
    | closeEvent code =>
      simp only [reconnStep] at hstep
      split at hstep
      · next hph =>
        have hz := h4 hph
        have hact : s.sessionActive = true := by
          cases hsa : s.sessionActive with
          | true => rfl
          | false =>
            have := (h3 hsa).2
            rw [hph] at this
            exact absurd this (by simp)
        injection hstep with hstep
        subst hstep
        by_cases hcode : code = 1000
        · simp [reconnInv, hz, hact, hcode]
        · simp [reconnInv, hz, hact, hcode]
      · exact absurd hstep (by simp)
    | timerFire =>
      simp only [reconnStep] at hstep
      split at hstep
      · next ht =>
        have h1t : s.timers = 1 := by omega
        obtain ⟨hph, hact⟩ := h2 h1t
        injection hstep with hstep
        subst hstep
        simp [reconnInv, connectStep, h1t, hph, hact]
      · exact absurd hstep (by simp)
    | disconnectCall =>
      simp only [reconnStep] at hstep
      injection hstep with hstep
      subst hstep
      dsimp only [reconnInv]
      refine ⟨by omega, by intro h; omega, ?_, by intro h; exact absurd h (by decide)⟩
      intro hsa
      have h0 := (h3 hsa).1
      exact ⟨by omega, rfl⟩
    | logout =>
      simp only [reconnStep] at hstep
      injection hstep with hstep
      subst hstep
      dsimp only [reconnInv]
      exact ⟨by omega, by intro h; omega, fun _ => ⟨by omega, rfl⟩,
        by intro h; exact absurd h (by decide)⟩

/-- Claim C6: from any reachable state of the reconnection supervisor, at
most one reconnect timer is outstanding; an abnormal close (code ≠ 1000) of
the open socket in an active session schedules exactly one timer after the
fixed 3-second delay (from zero outstanding to one); a deliberate close
(code 1000) schedules none; and `disconnect` or logout before the timer
fires cancels it, leaving none outstanding. -/
theorem c6_reconnection (s : ReconnState) (hs : ReconnReachable s) :
    reconnectDelayMs = 3000 ∧
    s.timers ≤ 1 ∧
    (∀ code, s.phase = .opened → code ≠ 1000 →
      s.timers = 0 ∧
      reconnStep s (.closeEvent code) =
        some { phase := .wentClosed, timers := 1, sessionActive := true }) ∧
    (s.phase = .opened →
      reconnStep s (.closeEvent 1000) =
        some { phase := .wentClosed, timers := s.timers,
               sessionActive := s.sessionActive }) ∧
    (∀ s', reconnStep s .disconnectCall = some s' → s'.timers = 0) ∧
    (∀ s', reconnStep s .logout = some s' → s'.timers = 0) := by
  obtain ⟨h1, h2, h3, h4⟩ := reconn_inv_of_reachable hs
  refine ⟨rfl, h1, ?_, ?_, ?_, ?_⟩
  · intro code hph hcode
    have hz := h4 hph
    have hact : s.sessionActive = true := by
      cases hsa : s.sessionActive with
      | true => rfl
      | false =>
        have := (h3 hsa).2
        rw [hph] at this
        exact absurd this (by simp)
    refine ⟨hz, ?_⟩
    simp [reconnStep, hph, hz, hact, hcode]
  · intro hph
    simp [reconnStep, hph]
  · intro s' hstep
    simp only [reconnStep] at hstep
    injection hstep with hstep
    subst hstep
    dsimp only
    omega
  · intro s' hstep
    simp only [reconnStep] at hstep
    injection hstep with hstep
    subst hstep
    dsimp only
    omega

/-- Witness for C6 in the reachable state right after login (socket open, no
timer, session active). -/
theorem c6_reconnection_witness :
    ({ phase := .opened, timers := 0, sessionActive := true } : ReconnState).timers ≤ 1 ∧
    reconnStep { phase := .opened, timers := 0, sessionActive := true }
        (.closeEvent 1006) =
      some { phase := .wentClosed, timers := 1, sessionActive := true } ∧
    reconnStep { phase := .opened, timers := 0, sessionActive := true }
        (.closeEvent 1000) =
      some { phase := .wentClosed, timers := 0, sessionActive := true } := by
  have hr : ReconnReachable { phase := .opened, timers := 0, sessionActive := true } :=
    @ReconnReachable.step reconnInit
      { phase := .opened, timers := 0, sessionActive := true }
      ReconnEvent.login ReconnReachable.init (by decide)
  have h := c6_reconnection _ hr
  exact ⟨h.2.1, (h.2.2.1 1006 rfl (by decide)).2, h.2.2.2.1 rfl⟩

/-- Every produced decimal digit is below 10. -/
theorem decDigitsAux_lt_ten :
    ∀ (fuel n : Nat), ∀ d ∈ decDigitsAux fuel n, d < 10 := by
  intro fuel
  induction fuel with
  | zero => intro n d hd; simp [decDigitsAux] at hd
  | succ f ih =>
    intro n d hd
    match n with
    | 0 => simp [decDigitsAux] at hd
    | m + 1 =>
      rw [decDigitsAux] at hd
      rcases List.mem_cons.mp hd with h | h
      · omega
      · exact ih _ d h

/-- With enough fuel, the digit list reconstructs its number. -/
theorem ofDigits_decDigitsAux :
    ∀ (fuel n : Nat), n ≤ fuel → Nat.ofDigits 10 (decDigitsAux fuel n) = n := by
  intro fuel
  induction fuel with
  | zero =>
    intro n h
    have : n = 0 := by omega
    subst this
    simp [decDigitsAux, Nat.ofDigits]
  | succ f ih =>
    intro n h
    match n with
    | 0 => simp [decDigitsAux, Nat.ofDigits]
    | m + 1 =>
      rw [decDigitsAux, Nat.ofDigits_cons, ih ((m + 1) / 10) (by omega)]
      omega

/-- The self-fuelled digit list determines the number. -/
theorem decDigitsAux_self_inj {n m : Nat}
    (h : decDigitsAux n n = decDigitsAux m m) : n = m := by
  have h1 := ofDigits_decDigitsAux n n le_rfl
  have h2 := ofDigits_decDigitsAux m m le_rfl
  rw [h] at h1
  omega

/-- `charVal` undoes `digitCh` on digits. -/
theorem charVal_digitCh {d : Nat} (h : d < 10) : charVal (digitCh d) = d := by
  interval_cases d <;> rfl

/-- `digitCh` is injective on lists of digits. -/
theorem map_digitCh_inj :
    ∀ (l1 l2 : List Nat), (∀ d ∈ l1, d < 10) → (∀ d ∈ l2, d < 10) →
      l1.map digitCh = l2.map digitCh → l1 = l2 := by
  intro l1
  induction l1 with
  | nil =>
    intro l2 _ _ h
    cases l2 with
    | nil => rfl
    | cons d t => simp at h
  | cons c t iht =>
    intro l2 h1 h2 h
    cases l2 with
    | nil => simp at h
    | cons d t2 =>
      simp only [List.map_cons, List.cons.injEq] at h
      obtain ⟨hh, ht⟩ := h
      have hc : c = d := by
        have e1 := charVal_digitCh (h1 c (List.mem_cons_self c t))
        have e2 := charVal_digitCh (h2 d (List.mem_cons_self d t2))
        rw [← e1, ← e2, hh]
      rw [hc, iht t2 (fun x hx => h1 x (List.mem_cons_of_mem _ hx))
        (fun x hx => h2 x (List.mem_cons_of_mem _ hx)) ht]

/-- A digit character is never an underscore. -/
theorem digitCh_ne_underscore {d : Nat} (h : d < 10) : digitCh d ≠ '_' := by
  interval_cases d <;> decide

/-- The decimal rendering never contains an underscore. -/
theorem underscore_not_mem_decStr (n : Nat) : '_' ∉ (decStr n).data := by
  unfold decStr
  by_cases hn : n = 0
  · rw [if_pos hn]; decide
  · rw [if_neg hn]
    intro hmem
    obtain ⟨d, hd, hdc⟩ := List.mem_map.mp hmem
    exact digitCh_ne_underscore
      (decDigitsAux_lt_ten n n d (List.mem_reverse.mp hd)) hdc

/-- The decimal rendering's characters determine the number. -/
theorem decStr_data_inj {n m : Nat}
    (h : (decStr n).data = (decStr m).data) : n = m := by
  unfold decStr at h
  by_cases hn : n = 0 <;> by_cases hm : m = 0
  · omega
  · rw [if_pos hn, if_neg hm] at h
    have h0 : ([0] : List Nat).map digitCh = ((decDigitsAux m m).reverse).map digitCh := by
      simpa using h
    have := map_digitCh_inj [0] (decDigitsAux m m).reverse (by simp)
      (fun d hd => decDigitsAux_lt_ten m m d (List.mem_reverse.mp hd)) h0
    have hdd : decDigitsAux m m = [0] := by
      have := congrArg List.reverse this
      simpa using this.symm
    have := ofDigits_decDigitsAux m m le_rfl
    rw [hdd] at this
    simp [Nat.ofDigits] at this
    omega
  · rw [if_neg hn, if_pos hm] at h
    have h0 : ((decDigitsAux n n).reverse).map digitCh = ([0] : List Nat).map digitCh := by
      simpa using h
    have := map_digitCh_inj (decDigitsAux n n).reverse [0]
      (fun d hd => decDigitsAux_lt_ten n n d (List.mem_reverse.mp hd)) (by simp) h0
    have hdd : decDigitsAux n n = [0] := by
      have := congrArg List.reverse this
      simpa using this
    have := ofDigits_decDigitsAux n n le_rfl
    rw [hdd] at this
    simp [Nat.ofDigits] at this
    omega
  · rw [if_neg hn, if_neg hm] at h
    have hrev := map_digitCh_inj (decDigitsAux n n).reverse (decDigitsAux m m).reverse
      (fun d hd => decDigitsAux_lt_ten n n d (List.mem_reverse.mp hd))
      (fun d hd => decDigitsAux_lt_ten m m d (List.mem_reverse.mp hd)) h
    have := congrArg List.reverse hrev
    simp only [List.reverse_reverse] at this
    exact decDigitsAux_self_inj this

/-- Splitting at the first separator that occurs in neither leading part. -/
theorem append_cons_underscore_inj :
    ∀ (l1 l2 q1 q2 : List Char), '_' ∉ l1 → '_' ∉ l2 →
      l1 ++ '_' :: q1 = l2 ++ '_' :: q2 → l1 = l2 ∧ q1 = q2 := by
  intro l1
  induction l1 with
  | nil =>
    intro l2 q1 q2 _ h2 h
    cases l2 with
    | nil => simpa using h
    | cons c cs =>
      simp only [List.nil_append, List.cons_append, List.cons.injEq] at h
      rw [← h.1] at h2
      exact absurd (List.mem_cons_self _ _) h2
  | cons c cs ih =>
    intro l2 q1 q2 h1 h2 h
    cases l2 with
    | nil =>
      simp only [List.cons_append, List.nil_append, List.cons.injEq] at h
      rw [h.1] at h1
      exact absurd (List.mem_cons_self _ _) h1
    | cons d ds =>
      simp only [List.cons_append, List.cons.injEq] at h
      obtain ⟨hcd, hrest⟩ := h
      obtain ⟨hl, hq⟩ := ih ds q1 q2
        (fun hm => h1 (List.mem_cons_of_mem _ hm))
        (fun hm => h2 (List.mem_cons_of_mem _ hm)) hrest
      exact ⟨by rw [hcd, hl], hq⟩

/-- `genId` is injective as a function of the `(Date.now(), random suffix)`
oracle draw: the `msg_` prefix and the underscore-free decimal timestamp make
the two components recoverable. -/
theorem genId_inj {t1 t2 : Nat} {r1 r2 : String}
    (h : genId t1 r1 = genId t2 r2) : t1 = t2 ∧ r1 = r2 := by
  have hd := congrArg String.data h
  simp only [genId, String.data_append, List.append_assoc, List.cons_append,
    List.nil_append, List.cons.injEq, true_and] at hd
  have hd' : (decStr t1).data ++ '_' :: r1.data = (decStr t2).data ++ '_' :: r2.data := hd
  obtain ⟨hds, hrs⟩ := append_cons_underscore_inj _ _ _ _
    (underscore_not_mem_decStr t1) (underscore_not_mem_decStr t2) hd'
  refine ⟨decStr_data_inj hds, ?_⟩
  ext1
  exact hrs

/-- Counterexample to claim C9 as stated: nothing in the id-generation scheme
forces two distinct `sendMessage` invocations to differ — a client lifetime
whose two sends draw the same millisecond timestamp and the same random
suffix (both possible: `Date.now()` can repeat within a millisecond and
`Math.random()` can repeat) produces two equal correlation ids. -/
theorem c9_counterexample :
    ¬ (∀ draws : List (Nat × String), (sendIds draws).Nodup) := by
  intro h
  exact absurd (h [(5, "k3j9x2m1q"), (5, "k3j9x2m1q")]) (by decide)

/-- Claim C9 (amended): the ids generated within one client lifetime are
pairwise distinct whenever the underlying `(Date.now(), random suffix)`
draws are pairwise distinct; uniqueness is not guaranteed when a timestamp
and a random suffix both repeat. -/
theorem c9_id_uniqueness (draws : List (Nat × String)) (h : draws.Nodup) :
    (sendIds draws).Nodup := by
  refine List.Nodup.map ?_ h
  intro a b hab
  obtain ⟨h1, h2⟩ := genId_inj hab
  exact Prod.ext h1 h2

/-- Witness for C9 (amended) on two draws in the same millisecond with
different random suffixes. -/
theorem c9_id_uniqueness_witness :
    (sendIds [(5, "k3j9x2m1q"), (5, "p0q8r7s6t")]).Nodup :=
  c9_id_uniqueness [(5, "k3j9x2m1q"), (5, "p0q8r7s6t")] (by decide)

end MCPDemo
